import Mathlib

/-!
Shallow embedding of the schema-to-struct generator (src/main.go) and a
verification of its specified properties.

The program reads table and column metadata from a database catalog, maps
SQL column types to Go types, renders one Go struct per table, and writes
each struct to a file `bunmodels/<table>_struct.go` beginning with a
package declaration.

Modelling decisions:
- A catalog row (Go `map[string]interface\x7b\x7d` with keys `column_name`
  and `data_type`) becomes the structure `Column`, whose two attributes each
  hold a dynamically typed value `SqlValue`.  A Go `[]uint8` value is
  represented by the string it converts to via `string(...)`; a value of any
  other dynamic type (including a missing key, i.e. a nil interface) is
  `SqlValue.other`, on which both type assertions in the source fail.
- Go `strings.TrimSpace` trims the runes of Unicode's White_Space class;
  `goIsSpace` reproduces `unicode.IsSpace` exactly.
- Filesystem effects (`os.MkdirAll`, `os.WriteFile`) are embedded as explicit
  state passing over `FS`, a directory list plus a path-to-content file list;
  `os.WriteFile` truncates, so a write replaces any entry at the same path.
- `main`'s per-table loop is `processTables`, with `FetchColumns` abstracted
  as an oracle `fetch` that either returns rows or fails with a connectivity
  error; `panic(err)` becomes an immediate return carrying the error.
- Debug printing (`fmt.Printf`) affects no result value and is dropped.
-/

/-- A dynamically typed value held in a catalog row, as `GenerateStruct`
inspects it: a byte slice (represented by its string conversion), a string,
or any other dynamic type (both type assertions fail on it). -/
inductive SqlValue where
  | bytes (s : String)
  | str (s : String)
  | other
deriving DecidableEq

/-- One catalog row for a column: the values stored under the keys
`column_name` and `data_type`. -/
structure Column where
  column_name : SqlValue
  data_type : SqlValue
deriving DecidableEq

/-- `MapColumnType` from src/main.go lines 51-66: the switch on the SQL type
name, with the catch-all default. -/
def MapColumnType (sqlType : String) : String :=
  if sqlType = "integer" then "int"
  else if sqlType = "bigint" then "int64"
  else if sqlType = "text" ∨ sqlType = "character varying" then "string"
  else if sqlType = "boolean" then "bool"
  else if sqlType = "timestamp without time zone" ∨ sqlType = "date" then "time.Time"
  else "interface\x7b\x7d"

/-- `unicode.IsSpace` from the Go standard library: membership in Unicode's
White_Space class, the runes trimmed by `strings.TrimSpace`. -/
def goIsSpace (c : Char) : Bool :=
  c = '\t' || c = '\n' || c = '\x0b' || c = '\x0c' || c = '\r' || c = ' ' ||
  c.val = 0x85 || c.val = 0xA0 || c.val = 0x1680 ||
  (0x2000 ≤ c.val && c.val ≤ 0x200A) ||
  c.val = 0x2028 || c.val = 0x2029 || c.val = 0x202F || c.val = 0x205F ||
  c.val = 0x3000

/-- The character-list computation of `strings.TrimSpace`: drop the maximal
run of White_Space characters from the front, then from the back. -/
def trimSpaceList (l : List Char) : List Char :=
  (((l.dropWhile goIsSpace).reverse.dropWhile goIsSpace).reverse)

/-- `cleanString` from src/main.go lines 108-110: `strings.TrimSpace`. -/
def cleanString (input : String) : String :=
  String.mk (trimSpaceList input.data)

/-- The decoding of `column["column_name"]` in src/main.go lines 76-83:
a byte slice is converted with `string(...)`, a string is taken as is, and
anything else leaves the declared `columnName` at its zero value `""`. -/
def decodeColumnName : SqlValue → String
  | .bytes s => s
  | .str s => s
  | .other => ""

/-- The decoding of `column["data_type"]` in src/main.go lines 85-92:
a byte slice or string is passed through `MapColumnType`; anything else
leaves the declared `dataType` at its zero value `""`. -/
def decodeDataType : SqlValue → String
  | .bytes s => MapColumnType s
  | .str s => MapColumnType s
  | .other => ""

/-- `GenerateStruct` from src/main.go lines 69-105: the header line, one
appended field line per column whose cleaned name and mapped type are both
non-empty, and the closing brace. -/
def GenerateStruct (tableName : String) (columns : List Column) : String :=
  let structCode := columns.foldl (fun acc column =>
    let columnName := cleanString (decodeColumnName column.column_name)
    let dataType := decodeDataType column.data_type
    if columnName ≠ "" ∧ dataType ≠ "" then
      acc ++ "\t" ++ columnName ++ " " ++ dataType ++ " `bun:\"" ++ columnName ++ "\"`\n"
    else acc)
    ("type " ++ tableName ++ " struct \x7b\n")
  structCode ++ "\x7d\n"

/-- The (field name, Go type) pairs that `GenerateStruct` actually emits, in
order: each column's cleaned decoded name and mapped decoded type, kept
exactly when both are non-empty. -/
def emittedFields (columns : List Column) : List (String × String) :=
  columns.filterMap (fun column =>
    let n := cleanString (decodeColumnName column.column_name)
    let t := decodeDataType column.data_type
    if n ≠ "" ∧ t ≠ "" then some (n, t) else none)

/-- The text of one emitted field line. -/
def fieldLine (p : String × String) : String :=
  "\t" ++ p.1 ++ " " ++ p.2 ++ " `bun:\"" ++ p.1 ++ "\"`\n"

/-- The concatenated body of all emitted field lines. -/
def renderFields (l : List (String × String)) : String :=
  l.foldr (fun p acc => fieldLine p ++ acc) ""

/-- The seven SQL type names the switch in `MapColumnType` recognizes. -/
def recognizedTypes : List String :=
  ["integer", "bigint", "text", "character varying", "boolean",
   "timestamp without time zone", "date"]

theorem renderFields_cons (p : String × String) (l : List (String × String)) :
    renderFields (p :: l) = fieldLine p ++ renderFields l := rfl

theorem string_append_assoc (a b c : String) : a ++ b ++ c = a ++ (b ++ c) := by
  apply String.ext
  simp [String.data_append, List.append_assoc]

theorem string_append_empty (a : String) : a ++ "" = a := by
  apply String.ext
  simp [String.data_append]

theorem generateStruct_foldl (cols : List Column) (acc : String) :
    cols.foldl (fun acc column =>
      let columnName := cleanString (decodeColumnName column.column_name)
      let dataType := decodeDataType column.data_type
      if columnName ≠ "" ∧ dataType ≠ "" then
        acc ++ "\t" ++ columnName ++ " " ++ dataType ++ " `bun:\"" ++ columnName ++ "\"`\n"
      else acc) acc
    = acc ++ renderFields (emittedFields cols) := by
  induction cols generalizing acc with
  | nil => simp [emittedFields, renderFields, string_append_empty]
  | cons c cs ih =>
    simp only [List.foldl_cons, emittedFields, List.filterMap_cons]
    by_cases h : cleanString (decodeColumnName c.column_name) ≠ "" ∧ decodeDataType c.data_type ≠ ""
    · simp only [if_pos h]
      rw [ih]
      show _ = acc ++ renderFields (_ :: _)
      rw [renderFields_cons, fieldLine]
      simp [string_append_assoc, emittedFields]
    · simp only [if_neg h]
      rw [ih]
      rfl

/-- `GenerateStruct` is the header with the table name inserted verbatim,
the emitted field lines in order, and the closing brace. -/
theorem GenerateStruct_eq (tableName : String) (cols : List Column) :
    GenerateStruct tableName cols
    = "type " ++ tableName ++ " struct \x7b\n" ++ renderFields (emittedFields cols) ++ "\x7d\n" := by
  unfold GenerateStruct
  rw [generateStruct_foldl]

/-- **C1**: `MapColumnType` is total and realizes exactly the documented
fixed mapping — integer to int, bigint to int64, text and character varying
to string, boolean to bool, timestamp without time zone and date to
time.Time — every unrecognized string maps to the dynamic fallback, the
result is never empty, and no error is raised. -/
theorem mapColumnType_spec :
    MapColumnType "integer" = "int"
    ∧ MapColumnType "bigint" = "int64"
    ∧ MapColumnType "text" = "string"
    ∧ MapColumnType "character varying" = "string"
    ∧ MapColumnType "boolean" = "bool"
    ∧ MapColumnType "timestamp without time zone" = "time.Time"
    ∧ MapColumnType "date" = "time.Time"
    ∧ (∀ s : String, s ∉ recognizedTypes → MapColumnType s = "interface\x7b\x7d")
    ∧ (∀ s : String, MapColumnType s ≠ "") := by
  refine ⟨rfl, rfl, rfl, rfl, rfl, rfl, rfl, ?_, ?_⟩
  · intro s hs
    simp only [recognizedTypes, List.mem_cons, List.not_mem_nil, or_false] at hs
    push_neg at hs
    obtain ⟨h1, h2, h3, h4, h5, h6, h7⟩ := hs
    simp [MapColumnType, h1, h2, h3, h4, h5, h6, h7]
  · intro s
    unfold MapColumnType
    repeat' split
    all_goals decide

/-- Witness for C1: the fallback branch evaluated at the concrete
unrecognized type name `"uuid"`, and non-emptiness there. -/
theorem mapColumnType_spec_witness :
    MapColumnType "uuid" = "interface\x7b\x7d" ∧ MapColumnType "uuid" ≠ "" :=
  ⟨mapColumnType_spec.2.2.2.2.2.2.2.1 "uuid" (by decide),
   mapColumnType_spec.2.2.2.2.2.2.2.2 "uuid"⟩

/-- **C7**: for every table name, an empty column list renders a type
declaration with an empty body and zero fields. -/
theorem generateStruct_empty_columns (tableName : String) :
    GenerateStruct tableName []
      = "type " ++ tableName ++ " struct \x7b\n" ++ "\x7d\n"
    ∧ emittedFields [] = [] := by
  refine ⟨?_, rfl⟩
  rw [GenerateStruct_eq]
  show _ ++ _ ++ renderFields [] ++ _ = _
  rw [renderFields]
  simp [string_append_empty]

/-- **C2**: on table `users` with columns id:integer, name:text,
created_at:timestamp without time zone, `GenerateStruct` produces a
declaration named `users` with exactly the three fields id:int, name:string,
created_at:time.Time, each tagged with its original column name. -/
theorem generateStruct_users_roundtrip :
    GenerateStruct "users"
      [⟨.str "id", .str "integer"⟩,
       ⟨.str "name", .str "text"⟩,
       ⟨.str "created_at", .str "timestamp without time zone"⟩]
    = "type users struct \x7b\n\tid int `bun:\"id\"`\n\tname string `bun:\"name\"`\n\tcreated_at time.Time `bun:\"created_at\"`\n\x7d\n"
    ∧ emittedFields
      [⟨.str "id", .str "integer"⟩,
       ⟨.str "name", .str "text"⟩,
       ⟨.str "created_at", .str "timestamp without time zone"⟩]
    = [("id", "int"), ("name", "string"), ("created_at", "time.Time")] := by
  constructor <;> rfl

theorem emittedFields_append (a b : List Column) :
    emittedFields (a ++ b) = emittedFields a ++ emittedFields b := by
  unfold emittedFields
  exact List.filterMap_append a b _

theorem emittedFields_cons_skip (c : Column) (l : List Column)
    (h : cleanString (decodeColumnName c.column_name) = "" ∨ decodeDataType c.data_type = "") :
    emittedFields (c :: l) = emittedFields l := by
  unfold emittedFields
  rw [List.filterMap_cons]
  have hcond : ¬(cleanString (decodeColumnName c.column_name) ≠ "" ∧ decodeDataType c.data_type ≠ "") := by
    rintro ⟨hn, ht⟩
    rcases h with h | h
    · exact hn h
    · exact ht h
  simp only [if_neg hcond]

/-- **C3**: a column whose cleaned name is empty or whose mapped type is
empty produces no field in the rendered output, wherever it sits in the
column list — silent omission, no error; in particular a whitespace-only
column name cleans to the empty string. -/
theorem generateStruct_skips_empty :
    (∀ (tableName : String) (pre post : List Column) (c : Column),
      cleanString (decodeColumnName c.column_name) = "" ∨ decodeDataType c.data_type = "" →
      GenerateStruct tableName (pre ++ c :: post) = GenerateStruct tableName (pre ++ post))
    ∧ cleanString "  " = "" := by
  constructor
  · intro tableName pre post c h
    rw [GenerateStruct_eq, GenerateStruct_eq, emittedFields_append, emittedFields_append,
      emittedFields_cons_skip c post h]
  · rfl

/-- Witness for C3: a column named `"  "` (whitespace only), of SQL type
integer, renders the same as no column at all. -/
theorem generateStruct_skips_empty_witness :
    GenerateStruct "t" [⟨.str "  ", .str "integer"⟩] = GenerateStruct "t" [] :=
  generateStruct_skips_empty.1 "t" [] [] ⟨.str "  ", .str "integer"⟩ (Or.inl (by decide))

/-- **C6**: `GenerateStruct` is deterministic — two runs on equal table
names and equal column lists produce byte-identical output text. -/
theorem generateStruct_deterministic (t₁ t₂ : String) (c₁ c₂ : List Column)
    (h₁ : t₁ = t₂) (h₂ : c₁ = c₂) :
    GenerateStruct t₁ c₁ = GenerateStruct t₂ c₂ := by
  rw [h₁, h₂]

/-- Witness for C6: two runs on the concrete users table agree. -/
theorem generateStruct_deterministic_witness :
    GenerateStruct "users" [⟨.str "id", .str "integer"⟩]
      = GenerateStruct "users" [⟨.str "id", .str "integer"⟩] :=
  generateStruct_deterministic "users" "users"
    [⟨.str "id", .str "integer"⟩] [⟨.str "id", .str "integer"⟩] rfl rfl

/-- **C8, counterexample**: the table name is emitted verbatim, with no
cleaning and no omission: for the whitespace table name `" "` the rendered
declaration carries `" "` in its type-name position even though that name
cleans to the empty string — so not every name appearing in the output is a
non-empty cleaned string. -/
theorem generateStruct_table_name_not_cleaned :
    GenerateStruct " " [] = "type " ++ " " ++ " struct \x7b\n" ++ "\x7d\n"
    ∧ cleanString " " = "" := by
  constructor <;> rfl

/-- **C8, amended**: every field name `GenerateStruct` emits is a non-empty
cleaned column name (columns failing this are silently omitted), but the
type name is the table name inserted verbatim, without cleaning or
omission. -/
theorem generateStruct_names (tableName : String) (cols : List Column) :
    GenerateStruct tableName cols
      = "type " ++ tableName ++ " struct \x7b\n" ++ renderFields (emittedFields cols) ++ "\x7d\n"
    ∧ ∀ p ∈ emittedFields cols,
        p.1 ≠ "" ∧ ∃ c ∈ cols, p.1 = cleanString (decodeColumnName c.column_name) := by
  refine ⟨GenerateStruct_eq tableName cols, ?_⟩
  intro p hp
  simp only [emittedFields, List.mem_filterMap] at hp
  obtain ⟨c, hc, hf⟩ := hp
  by_cases hcond : cleanString (decodeColumnName c.column_name) ≠ "" ∧ decodeDataType c.data_type ≠ ""
  · rw [if_pos hcond] at hf
    cases hf
    exact ⟨hcond.1, c, hc, rfl⟩
  · rw [if_neg hcond] at hf
    cases hf

/-- Witness for C8 (amended): the emitted field `("id", "int")` of the users
table has a non-empty name that is the cleaned name of an input column. -/
theorem generateStruct_names_witness :
    (("id", "int") : String × String).1 ≠ ""
    ∧ ∃ c ∈ [(⟨.str "id", .str "integer"⟩ : Column)],
        (("id", "int") : String × String).1 = cleanString (decodeColumnName c.column_name) :=
  (generateStruct_names "users" [⟨.str "id", .str "integer"⟩]).2 ("id", "int") (by decide)

theorem emittedFields_eq_filter (cols : List Column) :
    emittedFields cols
      = (cols.map (fun c =>
          (cleanString (decodeColumnName c.column_name), decodeDataType c.data_type))).filter
        (fun p => decide (p.1 ≠ "") && decide (p.2 ≠ "")) := by
  induction cols with
  | nil => rfl
  | cons c cs ih =>
    simp only [emittedFields, List.filterMap_cons, List.map_cons, List.filter_cons] at ih ⊢
    by_cases hcond : cleanString (decodeColumnName c.column_name) ≠ "" ∧ decodeDataType c.data_type ≠ ""
    · rw [if_pos hcond]
      have : (decide (cleanString (decodeColumnName c.column_name) ≠ "")
          && decide (decodeDataType c.data_type ≠ "")) = true := by
        simp [hcond.1, hcond.2]
      rw [this]
      simp only [if_pos]
      rw [ih]
    · rw [if_neg hcond]
      have : (decide (cleanString (decodeColumnName c.column_name) ≠ "")
          && decide (decodeDataType c.data_type ≠ "")) = false := by
        rw [not_and_or] at hcond
        rcases hcond with h | h <;> simp [not_not.mp h]
      rw [this]
      simp only [Bool.false_eq_true, if_false]
      exact ih

/-- **C9**: the fields `GenerateStruct` emits appear in the output in the
same relative order as their source columns (a sublist of the per-column
cleaned-name/mapped-type sequence), and each emitted field line carries the
same string as field name and as serialization tag. -/
theorem generateStruct_field_order (tableName : String) (cols : List Column) :
    GenerateStruct tableName cols
      = "type " ++ tableName ++ " struct \x7b\n" ++ renderFields (emittedFields cols) ++ "\x7d\n"
    ∧ (emittedFields cols).Sublist (cols.map (fun c =>
        (cleanString (decodeColumnName c.column_name), decodeDataType c.data_type)))
    ∧ ∀ p : String × String,
        fieldLine p = "\t" ++ p.1 ++ " " ++ p.2 ++ " `bun:\"" ++ p.1 ++ "\"`\n" := by
  refine ⟨GenerateStruct_eq tableName cols, ?_, fun p => rfl⟩
  rw [emittedFields_eq_filter]
  exact List.filter_sublist _

/-- **C10**: `cleanString` removes only leading and trailing White_Space
characters: the result is a contiguous substring of the input, everything
removed on either side is whitespace, and interior characters — a space
inside `" a b "` included — survive verbatim into both the emitted field
name and its tag, with no identifier validation. -/
theorem cleanString_trim_only (input : String) :
    (∃ pre post : List Char,
      input.data = pre ++ (cleanString input).data ++ post
      ∧ (∀ c ∈ pre, goIsSpace c = true)
      ∧ (∀ c ∈ post, goIsSpace c = true))
    ∧ GenerateStruct "t" [⟨.str " a b ", .str "text"⟩]
      = "type t struct \x7b\n\ta b string `bun:\"a b\"`\n\x7d\n" := by
  constructor
  · refine ⟨input.data.takeWhile goIsSpace,
      (((input.data.dropWhile goIsSpace).reverse.takeWhile goIsSpace)).reverse, ?_, ?_, ?_⟩
    · show input.data = _ ++ trimSpaceList input.data ++ _
      unfold trimSpaceList
      conv_lhs => rw [← List.takeWhile_append_dropWhile (p := goIsSpace) (l := input.data)]
      rw [List.append_assoc]
      congr 1
      conv_lhs =>
        rw [← List.reverse_reverse (input.data.dropWhile goIsSpace),
          ← List.takeWhile_append_dropWhile (p := goIsSpace)
            (l := (input.data.dropWhile goIsSpace).reverse)]
      rw [List.reverse_append]
    · intro c hc
      exact List.mem_takeWhile_imp hc
    · intro c hc
      rw [List.mem_reverse] at hc
      exact List.mem_takeWhile_imp hc
  · rfl

/-- Witness for C10: the characterization applied at the concrete input
`" a b "`. -/
theorem cleanString_trim_only_witness :
    ∃ pre post : List Char,
      (" a b " : String).data = pre ++ (cleanString " a b ").data ++ post
      ∧ (∀ c ∈ pre, goIsSpace c = true)
      ∧ (∀ c ∈ post, goIsSpace c = true) :=
  (cleanString_trim_only " a b ").1

/-- The filesystem state the generator touches: the directories that exist
and the files present, as (path, content) pairs with at most one entry per
path. -/
structure FS where
  dirs : List String
  files : List (String × String)
deriving DecidableEq

/-- `SaveStructToFile` from src/main.go lines 113-123, on the success path:
`os.MkdirAll` makes `bunmodels` exist, and `os.WriteFile` stores the package
declaration followed by the struct code at `bunmodels/<fileName>`,
truncating (replacing) any previous file at that path. -/
def SaveStructToFile (fs : FS) (fileName structCode : String) : FS :=
  let packageDir := "bunmodels"
  let dirs := if packageDir ∈ fs.dirs then fs.dirs else packageDir :: fs.dirs
  let fullCode := "package bunmodels\n\n" ++ structCode
  let filePath := packageDir ++ "/" ++ fileName
  { dirs := dirs
    files := (filePath, fullCode) :: fs.files.filter (fun p => p.1 ≠ filePath) }

/-- The error taxonomy of the spec: the generator's external failures are
connectivity errors (connection/query) — file I/O is modelled as succeeding,
since the claims under proof concern query failures. -/
inductive DBError where
  | connectivity (msg : String)
deriving DecidableEq

/-- The per-table loop of `main`, src/main.go lines 150-165: for each table,
fetch its columns (the `FetchColumns` query, abstracted as the oracle
`fetch`), generate the struct, and save it to `<table>_struct.go`; a fetch
failure panics, i.e. stops immediately, leaving the files written so far and
reporting the error. -/
def processTables (fetch : String → Except DBError (List Column))
    (tables : List String) (fs : FS) : FS × Option DBError :=
  match tables with
  | [] => (fs, none)
  | t :: rest =>
    match fetch t with
    | .error e => (fs, some e)
    | .ok cols =>
        processTables fetch rest
          (SaveStructToFile fs (t ++ "_struct.go") (GenerateStruct t cols))

theorem saveStructToFile_files (fs : FS) (fileName text : String) :
    (SaveStructToFile fs fileName text).files
    = ("bunmodels/" ++ fileName, "package bunmodels\n\n" ++ text)
      :: fs.files.filter (fun p => p.1 ≠ "bunmodels/" ++ fileName) := rfl

theorem saveStructToFile_dirs (fs : FS) (fileName text : String) :
    (SaveStructToFile fs fileName text).dirs
    = if "bunmodels" ∈ fs.dirs then fs.dirs else "bunmodels" :: fs.dirs := rfl

/-- **C4**: `SaveStructToFile` makes the fixed output directory exist
(creating it if absent), stores the table's file at
`bunmodels/<table>_struct.go` with content exactly the package header
followed by the text passed in — nothing before, between or after — and
touches no other path. -/
theorem saveStructToFile_spec (fs : FS) (tableName text : String) :
    "bunmodels" ∈ (SaveStructToFile fs (tableName ++ "_struct.go") text).dirs
    ∧ (∀ content : String,
        ("bunmodels/" ++ (tableName ++ "_struct.go"), content)
            ∈ (SaveStructToFile fs (tableName ++ "_struct.go") text).files
          ↔ content = "package bunmodels\n\n" ++ text)
    ∧ (∀ q ∈ (SaveStructToFile fs (tableName ++ "_struct.go") text).files,
        q.1 = "bunmodels/" ++ (tableName ++ "_struct.go") ∨ q ∈ fs.files)
    ∧ (∀ d ∈ (SaveStructToFile fs (tableName ++ "_struct.go") text).dirs,
        d = "bunmodels" ∨ d ∈ fs.dirs) := by
  refine ⟨?_, ?_, ?_, ?_⟩
  · rw [saveStructToFile_dirs]
    by_cases h : "bunmodels" ∈ fs.dirs
    · rwa [if_pos h]
    · rw [if_neg h]
      exact List.mem_cons_self _ _
  · intro content
    rw [saveStructToFile_files]
    constructor
    · intro h
      rcases List.mem_cons.mp h with h | h
      · simpa using congrArg Prod.snd h
      · have h2 := (List.mem_filter.mp h).2
        simp at h2
    · rintro rfl
      exact List.mem_cons_self _ _
  · intro q hq
    rw [saveStructToFile_files] at hq
    rcases List.mem_cons.mp hq with h | h
    · left
      rw [h]
    · right
      exact List.mem_of_mem_filter h
  · intro d hd
    rw [saveStructToFile_dirs] at hd
    by_cases h : "bunmodels" ∈ fs.dirs
    · rw [if_pos h] at hd
      exact Or.inr hd
    · rw [if_neg h] at hd
      rcases List.mem_cons.mp hd with h' | h'
      · exact Or.inl h'
      · exact Or.inr h'

theorem string_append_left_cancel (a b c : String) (h : a ++ b = a ++ c) : b = c := by
  apply String.ext
  have h2 : a.data ++ b.data = a.data ++ c.data := by
    have := congrArg String.data h
    simpa [String.data_append] using this
  exact List.append_cancel_left h2

theorem string_append_right_cancel (a b c : String) (h : a ++ c = b ++ c) : a = b := by
  apply String.ext
  have h2 : a.data ++ c.data = b.data ++ c.data := by
    have := congrArg String.data h
    simpa [String.data_append] using this
  exact List.append_cancel_right h2

theorem saveStructToFile_preserves_absent (fs : FS) (fileName text path : String)
    (hne : path ≠ "bunmodels/" ++ fileName)
    (habs : path ∉ fs.files.map Prod.fst) :
    path ∉ (SaveStructToFile fs fileName text).files.map Prod.fst := by
  rw [saveStructToFile_files]
  simp only [List.map_cons, List.mem_cons]
  rintro (h | h)
  · exact hne h
  · apply habs
    rw [List.mem_map] at h
    obtain ⟨q, hq, rfl⟩ := h
    exact List.mem_map_of_mem _ (List.mem_of_mem_filter hq)

/-- **C5**: if the column query fails for a table, the loop of `main` stops
at that table with the connectivity error it reported: the filesystem state
is exactly the state after the earlier tables (no file is written for the
failing table, none for any later table), however many earlier tables were
already processed. -/
theorem processTables_fetch_failure
    (fetch : String → Except DBError (List Column))
    (pre rest : List String) (t : String) (fs : FS) (e : DBError)
    (hpre : ∀ t' ∈ pre, ∃ cols, fetch t' = .ok cols)
    (hfail : fetch t = .error e)
    (hnot : t ∉ pre)
    (hfile : "bunmodels/" ++ (t ++ "_struct.go") ∉ fs.files.map Prod.fst) :
    processTables fetch (pre ++ t :: rest) fs = ((processTables fetch pre fs).1, some e)
    ∧ "bunmodels/" ++ (t ++ "_struct.go")
        ∉ ((processTables fetch (pre ++ t :: rest) fs).1).files.map Prod.fst := by
  induction pre generalizing fs with
  | nil =>
    simp only [List.nil_append]
    constructor
    · show (match fetch t with
        | .error e => (fs, some e)
        | .ok cols => processTables fetch rest
            (SaveStructToFile fs (t ++ "_struct.go") (GenerateStruct t cols))) = _
      rw [hfail]
      rfl
    · show "bunmodels/" ++ (t ++ "_struct.go") ∉ ((match fetch t with
        | .error e => (fs, some e)
        | .ok cols => processTables fetch rest
            (SaveStructToFile fs (t ++ "_struct.go") (GenerateStruct t cols))).1).files.map Prod.fst
      rw [hfail]
      exact hfile
  | cons a pre' ih =>
    obtain ⟨cols, hca⟩ := hpre a (List.mem_cons_self a pre')
    have hta : t ≠ a := by
      intro h
      exact hnot (h ▸ List.mem_cons_self a pre')
    have hne : "bunmodels/" ++ (t ++ "_struct.go") ≠ "bunmodels/" ++ (a ++ "_struct.go") := by
      intro h
      exact hta (string_append_right_cancel t a "_struct.go" (string_append_left_cancel _ _ _ h))
    have hfile' := saveStructToFile_preserves_absent fs (a ++ "_struct.go")
      (GenerateStruct a cols) _ hne hfile
    have hpre' : ∀ t' ∈ pre', ∃ cols, fetch t' = .ok cols :=
      fun t' ht' => hpre t' (List.mem_cons_of_mem a ht')
    have hnot' : t ∉ pre' := fun h => hnot (List.mem_cons_of_mem a h)
    have step : ∀ tl, processTables fetch (a :: tl) fs
        = processTables fetch tl (SaveStructToFile fs (a ++ "_struct.go") (GenerateStruct a cols)) := by
      intro tl
      show (match fetch a with
        | .error e => (fs, some e)
        | .ok cols => processTables fetch tl
            (SaveStructToFile fs (a ++ "_struct.go") (GenerateStruct a cols))) = _
      rw [hca]
    obtain ⟨ih1, ih2⟩ := ih (SaveStructToFile fs (a ++ "_struct.go") (GenerateStruct a cols))
      hpre' hnot' hfile'
    refine ⟨?_, ?_⟩
    · rw [List.cons_append, step, ih1, step]
    · rw [List.cons_append, step]
      exact ih2

/-- The concrete fetch oracle used to witness C5: table `a` has no columns,
every other query fails with a connectivity error. -/
def fetchStub : String → Except DBError (List Column) :=
  fun s => if s = "a" then .ok [] else .error (.connectivity "connection refused")

/-- Witness for C5: with table `a` succeeding and table `b` failing, the run
over tables `[a, b, c]` stops at `b` with the connectivity error, in the
state reached after `a` alone, and no file for `b` exists in it. -/
theorem processTables_fetch_failure_witness :
    processTables fetchStub (["a"] ++ "b" :: ["c"]) ⟨[], []⟩
      = ((processTables fetchStub ["a"] ⟨[], []⟩).1, some (.connectivity "connection refused"))
    ∧ "bunmodels/" ++ ("b" ++ "_struct.go")
        ∉ ((processTables fetchStub (["a"] ++ "b" :: ["c"]) ⟨[], []⟩).1).files.map Prod.fst :=
  processTables_fetch_failure fetchStub ["a"] ["c"] "b" ⟨[], []⟩
    (.connectivity "connection refused")
    (by
      intro t' ht'
      rw [List.mem_singleton] at ht'
      subst ht'
      exact ⟨[], rfl⟩)
    rfl (by decide) (by decide)
